import Mathlib

/-
  Verification development for the CookieCutterMonster image processing core.
  The definitions below are a shallow embedding of the image processing
  service: contour areas (Green formula, as cv.contourArea), the default
  boundary scan of onImageLoad, the ring contour selection of
  getScaledOutlineShape, the point reduction filter getThreeVector, the
  solid assembly of generateSTL, the click driven contour re-selection of
  updateContourSelection, and the filename handling of saveTextAsFile.
  External computer vision and geometry primitives (rasterization, contour
  tracing, extrusion) are modelled as abstract function parameters.
-/

namespace CookieCutter

/-- A contour point, as held in the int32 point data of a cv contour. -/
abbrev Pt : Type := ℤ × ℤ

/-- A traced contour: an ordered closed sequence of integer points. -/
abbrev Contour : Type := List Pt

/-- Cross product term of the shoelace sum. -/
def cross (p q : Pt) : ℤ := p.1 * q.2 - q.1 * p.2

/-- Shoelace sum of a closed polygon, walking the tail and wrapping back to
the fixed first vertex. -/
def shoelaceFrom (first : Pt) : Pt → List Pt → ℤ
  | prev, [] => cross prev first
  | prev, q :: qs => cross prev q + shoelaceFrom first q qs

/-- Twice the signed area of a closed polygon (Green formula). -/
def shoelace : Contour → ℤ
  | [] => 0
  | p :: ps => shoelaceFrom p p ps

/-- Signed contour area, as cv.contourArea with oriented set to true. -/
def signedArea (c : Contour) : ℚ := (shoelace c : ℚ) / 2

/-- Unsigned contour area, as cv.contourArea with oriented set to false. -/
def unsignedArea (c : Contour) : ℚ := |signedArea c|

/-- One keep decision of getThreeVector, exactly the inequality chain of the
source: the point is kept when it escapes the tolerance band around the last
kept point in at least one axis. -/
def keepPoint (tolerace lastX lastY x y : ℚ) : Prop :=
  lastX + tolerace < x ∨ lastX - tolerace > x ∨
    lastY + tolerace < y ∨ lastY - tolerace > y

instance (t lx ly x y : ℚ) : Decidable (keepPoint t lx ly x y) := by
  unfold keepPoint; infer_instance

/-- The scan loop of getThreeVector: walk the points in order, keeping a
point when the keep decision fires against the last kept point. -/
def gtvLoop (scale tolerace : ℚ) : List Pt → ℚ → ℚ → List (ℚ × ℚ)
  | [], _, _ => []
  | p :: rest, lastX, lastY =>
      if keepPoint tolerace lastX lastY ((p.1 : ℚ) * scale) ((p.2 : ℚ) * scale) then
        ((p.1 : ℚ) * scale, (p.2 : ℚ) * scale) ::
          gtvLoop scale tolerace rest ((p.1 : ℚ) * scale) ((p.2 : ℚ) * scale)
      else
        gtvLoop scale tolerace rest lastX lastY

/-- getThreeVector: the scaled, tolerance filtered vertex list; the last kept
tracker starts at (-1000, -1000). -/
def getThreeVector (cnt : Contour) (scaleF tolerace : ℚ) : List (ℚ × ℚ) :=
  gtvLoop scaleF tolerace cnt (-1000) (-1000)

/-- Spec side predicate: the point differs from the last kept point by
strictly more than the tolerance in at least one axis. -/
def differsBeyond (tol lastX lastY x y : ℚ) : Prop :=
  tol < |x - lastX| ∨ tol < |y - lastY|

instance (t lx ly x y : ℚ) : Decidable (differsBeyond t lx ly x y) := by
  unfold differsBeyond; infer_instance

/-- Greedy subsequence of the scaled points under the per axis tolerance
predicate, following the wording of the specification. -/
def greedyKeep (scale tol : ℚ) : List Pt → ℚ → ℚ → List (ℚ × ℚ)
  | [], _, _ => []
  | p :: rest, lastX, lastY =>
      if differsBeyond tol lastX lastY ((p.1 : ℚ) * scale) ((p.2 : ℚ) * scale) then
        ((p.1 : ℚ) * scale, (p.2 : ℚ) * scale) ::
          greedyKeep scale tol rest ((p.1 : ℚ) * scale) ((p.2 : ℚ) * scale)
      else
        greedyKeep scale tol rest lastX lastY

/-- The greedy specification of the point reduction filter. -/
def greedySpec (cnt : Contour) (scale tol : ℚ) : List (ℚ × ℚ) :=
  greedyKeep scale tol cnt (-1000) (-1000)

/-- The four point contour on which a larger tolerance keeps more vertices. -/
def c5Pts : Contour := [(0, 0), (3, 0), (5, 0), (1, 0)]

/-- Accumulator of the default boundary scan in onImageLoad: the index of the
current best contour, its unsigned area, and whether its signed area was non
negative (the clockwise flag of the source). -/
structure SelAcc where
  largestContour : ℕ
  maxArea : ℚ
  clockwise : Bool
  deriving DecidableEq

/-- The frame area cutoff of onImageLoad:
boundaryCountourAreaCutoff = (cols * rows) * .90. -/
def frameCutoff (cols rows : ℕ) : ℚ := ((cols * rows : ℕ) : ℚ) * (9 / 10)

/-- Candidate filter of onImageLoad: a contour is a selectable candidate when
its unsigned area lies strictly between cutoff * .1 and cutoff. -/
def isCandidate (cutoff : ℚ) (c : Contour) : Prop :=
  cutoff * (1 / 10) < unsignedArea c ∧ unsignedArea c < cutoff

instance (cutoff : ℚ) (c : Contour) : Decidable (isCandidate cutoff c) := by
  unfold isCandidate; infer_instance

/-- The default boundary scan of onImageLoad: keep the contour of largest
unsigned area strictly below the frame cutoff, remembering its orientation. -/
def selLoop (cutoff : ℚ) : ℕ → SelAcc → List Contour → SelAcc
  | _, acc, [] => acc
  | i, acc, c :: cs =>
      if unsignedArea c < cutoff ∧ acc.maxArea < unsignedArea c then
        selLoop cutoff (i + 1) ⟨i, unsignedArea c, decide (0 ≤ signedArea c)⟩ cs
      else
        selLoop cutoff (i + 1) acc cs

/-- The default boundary selection, started as in the source with
largestContour = 0, maxArea = 0 and clockwise = true. -/
def defaultSel (cutoff : ℚ) (cs : List Contour) : SelAcc :=
  selLoop cutoff 0 ⟨0, 0, true⟩ cs

/-- An axis aligned counter clockwise square of side ten, the concrete
candidate used by witnesses. -/
def sqTen : Contour := [(0, 0), (10, 0), (10, 10), (0, 10)]

/-- Accumulator of the ring contour scan in getScaledOutlineShape: the index
of the current largest contour, the index it displaced, and its area. The
source initializes largestContour to 1 and otherContour to 0. -/
structure RingAcc where
  largestContour : ℕ
  otherContour : ℕ
  maxArea : ℚ
  deriving DecidableEq

/-- The ring contour scan: on each update the previous largest index moves
into the other slot, exactly as in the source. -/
def ringLoop (cutoff : ℚ) : ℕ → RingAcc → List Contour → RingAcc
  | _, acc, [] => acc
  | i, acc, c :: cs =>
      if acc.maxArea < unsignedArea c ∧ unsignedArea c < cutoff then
        ringLoop cutoff (i + 1) ⟨i, acc.largestContour, unsignedArea c⟩ cs
      else
        ringLoop cutoff (i + 1) acc cs

/-- The ring contour selection, started as in the source with
largestContour = 1, otherContour = 0 and maxArea = 0. -/
def ringSel (cutoff : ℚ) (cs : List Contour) : RingAcc :=
  ringLoop cutoff 0 ⟨1, 0, 0⟩ cs

/-- An outline shape: an outer polygon and its hole polygons, as the
THREE.Shape with holes built by getScaledOutlineShape. -/
structure OutlineShape where
  outer : List (ℚ × ℚ)
  holes : List (List (ℚ × ℚ))
  deriving DecidableEq

/-- walloffset = ceil((maxBoundaryOffetWidth + 1) * 12), keeping the
spelling of the source parameter. -/
def wallOffset (maxBoundaryOffetWidth : ℚ) : ℤ :=
  ⌈(maxBoundaryOffetWidth + 1) * 12⌉

/-- Side length of the ring raster:
maxDesiredOut * 10 + walloffset * 2 (square matrix). -/
def ringSide (maxDesiredOut maxBoundaryOffetWidth : ℚ) : ℚ :=
  maxDesiredOut * 10 + ((wallOffset maxBoundaryOffetWidth : ℤ) : ℚ) * 2

/-- boundaryCountourAreaCutoff of getScaledOutlineShape:
(dst.cols * dst.rows) * .95 on the square ring raster. -/
def ringCutoff (maxDesiredOut maxBoundaryOffetWidth : ℚ) : ℚ :=
  ringSide maxDesiredOut maxBoundaryOffetWidth *
    ringSide maxDesiredOut maxBoundaryOffetWidth * (95 / 100)

/-- The contour pair extraction step of getScaledOutlineShape on a traced
contour list: take the largest slot as the outer boundary and the other slot
as the single hole, with the fixed rescale factor .1; a slot index outside
the list is a failed lookup. -/
def ringOutline (cutoff tol : ℚ) (cs : List Contour) : Option OutlineShape :=
  match cs[(ringSel cutoff cs).largestContour]?, cs[(ringSel cutoff cs).otherContour]? with
  | some oc, some ic =>
      some ⟨getThreeVector oc (1 / 10) tol, [getThreeVector ic (1 / 10) tol]⟩
  | _, _ => none

/-- The external computer vision collaborator: given a boundary, a stroke
width, the maximum boundary offset width and the desired output size, draw
the scaled stroked boundary on a blank raster, binarize, and re-trace its
contours. The core consumes this as an abstract primitive. -/
structure CVEnv where
  strokeRetrace : Contour → ℚ → ℚ → ℚ → List Contour

/-- getScaledOutlineShape: stroke and re-trace the boundary, then extract
the outer and inner contours of the resulting ring raster. -/
def getScaledOutlineShape (env : CVEnv) (cnt : Contour)
    (width maxBoundaryOffetWidth maxDesiredOut tol : ℚ) : Option OutlineShape :=
  ringOutline (ringCutoff maxDesiredOut maxBoundaryOffetWidth) tol
    (env.strokeRetrace cnt width maxBoundaryOffetWidth maxDesiredOut)

/-- A counter clockwise square of side forty. -/
def sqBig : Contour := [(0, 0), (40, 0), (40, 40), (0, 40)]

/-- A counter clockwise square of side twenty nested inside sqBig. -/
def sqSmall : Contour := [(10, 10), (30, 10), (30, 30), (10, 30)]

/-- A CV collaborator whose ring raster traces a single contour: the
degenerate situation of claim C2. -/
def envOne : CVEnv := ⟨fun _ _ _ _ => [sqBig]⟩

/-- A CV collaborator whose ring raster traces exactly the two nested
squares, the well behaved ring situation. -/
def envTwo : CVEnv := ⟨fun _ _ _ _ => [sqBig, sqSmall]⟩

/-- A five by two rectangle of area ten. -/
def rectTen : Contour := [(0, 0), (5, 0), (5, 2), (0, 2)]

/-- A five by one rectangle of area five. -/
def rectFive : Contour := [(0, 0), (5, 0), (5, 1), (0, 1)]

/-- A seven by one rectangle of area seven. -/
def rectSeven : Contour := [(0, 0), (7, 0), (7, 1), (0, 1)]

/-- The three contour trace on which the other slot is not the second
largest contour: areas ten, five and seven in that order. -/
def csThree : List Contour := [rectTen, rectFive, rectSeven]

/-- A CV collaborator whose ring raster traces the three rectangles. -/
def envThree : CVEnv := ⟨fun _ _ _ _ => csThree⟩

/-- Extrusion settings, mirroring the fields of the source objects; the
bevel fields of an object that omits them are recorded as zero. -/
structure ExtrudeSettings where
  steps : ℕ
  depth : ℚ
  bevelEnabled : Bool
  bevelThickness : ℚ
  bevelSize : ℚ
  bevelOffset : ℚ
  bevelSegments : ℕ
  deriving DecidableEq

/-- One extruded piece of the final solid: the outline it extrudes, its
settings, and the vertical translation applied to the resulting geometry. -/
structure Extrusion where
  shape : OutlineShape
  settings : ExtrudeSettings
  zOffset : ℚ
  deriving DecidableEq

/-- The configuration snapshot read from cookieState by generateSTL. -/
structure CutterConfig where
  depth : ℚ
  thickness : ℚ
  tolerance : ℚ
  size : ℚ
  cutterBevel : Bool
  handleRound : Bool
  deriving DecidableEq

/-- The fixed handle outline width of generateSTL: handleWidth = 4.2. -/
def handleWidth : ℚ := 21 / 5

/-- The fixed handle extrusion depth of generateSTL: handleThickness = 2. -/
def handleThickness : ℚ := 2

/-- extrudeSettings of the source: zero depth, bevel enabled, bevel
thickness height/2, bevel size width/2, one segment. -/
def capSettings (height width : ℚ) : ExtrudeSettings :=
  ⟨1, 0, true, height / 2, width / 2, 0, 1⟩

/-- extrudeSettings2 of the source: straight extrusion of depth height/2,
overwritten to the full height when the bevel is disabled. -/
def straightSettings (height : ℚ) (bevelCutter : Bool) : ExtrudeSettings :=
  ⟨1, if bevelCutter then height / 2 else height, false, 0, 0, 0, 0⟩

/-- handleExtrudeSettings of the source: depth handleThickness, bevel
following the handleRound flag, bevel thickness and size .6, five
segments. -/
def handleSettings (handleRound : Bool) : ExtrudeSettings :=
  ⟨1, handleThickness, handleRound, 3 / 5, 3 / 5, 0, 5⟩

/-- generateSTL: read the configuration, build the wall outline at
thickness/2 (plus, when beveled, the relief outline at thickness * 3 / 2)
and the handle outline at the fixed handle width, then extrude. With bevel:
a straight base of height depth/2 from the relief outline, a beveled cap
from the wall outline translated up by depth/2, and the handle. Without
bevel: a single straight extrusion of the wall outline to the full depth,
and the handle. A failed outline lookup aborts the build. -/
def generateSTL (env : CVEnv) (cnt : Contour) (cfg : CutterConfig) :
    Option (List Extrusion) :=
  if cfg.cutterBevel then
    match getScaledOutlineShape env cnt (cfg.thickness / 2) handleWidth cfg.size cfg.tolerance,
        getScaledOutlineShape env cnt (cfg.thickness * 3 / 2) handleWidth cfg.size cfg.tolerance,
        getScaledOutlineShape env cnt handleWidth handleWidth cfg.size cfg.tolerance with
    | some outShape, some outShape2, some handleoutShape =>
        some [⟨outShape2, straightSettings cfg.depth true, 0⟩,
          ⟨outShape, capSettings cfg.depth cfg.thickness, cfg.depth / 2⟩,
          ⟨handleoutShape, handleSettings cfg.handleRound, 0⟩]
    | _, _, _ => none
  else
    match getScaledOutlineShape env cnt (cfg.thickness / 2) handleWidth cfg.size cfg.tolerance,
        getScaledOutlineShape env cnt handleWidth handleWidth cfg.size cfg.tolerance with
    | some outShape, some handleoutShape =>
        some [⟨outShape, straightSettings cfg.depth false, 0⟩,
          ⟨handleoutShape, handleSettings cfg.handleRound, 0⟩]
    | _, _ => none

/-- The default configuration of the application constants, bevel
disabled. -/
def cfgDefault : CutterConfig := ⟨16, 1, 15 / 100, 76, false, false⟩

/-- The default configuration with the cutter bevel enabled. -/
def cfgBevel : CutterConfig := ⟨16, 1, 15 / 100, 76, true, false⟩

/-- The outline shape produced from the two nested squares at the default
tolerance. -/
def shapeTwo : OutlineShape :=
  ⟨getThreeVector sqBig (1 / 10) (15 / 100), [getThreeVector sqSmall (1 / 10) (15 / 100)]⟩

/-- The extrusion list produced by generateSTL on the two square trace with
the default, non beveled configuration. -/
def piecesTwo : List Extrusion :=
  [⟨shapeTwo, ⟨1, 16, false, 0, 0, 0, 0⟩, 0⟩,
    ⟨shapeTwo, ⟨1, 2, false, 3 / 5, 3 / 5, 0, 5⟩, 0⟩]

/-- The character class kept by the replace call of saveTextAsFile: the
characters matching a-z, A-Z, 0-9, underscore or hyphen; every other
character is replaced. -/
def allowedChar (c : Char) : Bool :=
  decide (('a' ≤ c ∧ c ≤ 'z') ∨ ('A' ≤ c ∧ c ≤ 'Z') ∨ ('0' ≤ c ∧ c ≤ '9') ∨
    c = '_' ∨ c = '-')

/-- sanitizedFilename of saveTextAsFile: every character outside the
restricted class becomes an underscore. -/
def sanitizedFilename (saveFilename : String) : String :=
  String.mk (saveFilename.data.map fun c => if allowedChar c then c else '_')

/-- fileNameToSaveAs of saveTextAsFile: the sanitized base plus the fixed
mesh extension. -/
def fileNameToSaveAs (saveFilename : String) : String :=
  sanitizedFilename saveFilename ++ ".stl"

/-- The character class named by the specification: ASCII letter, digit,
hyphen or underscore. -/
def specAllowed (c : Char) : Prop :=
  ('a' ≤ c ∧ c ≤ 'z') ∨ ('A' ≤ c ∧ c ≤ 'Z') ∨ ('0' ≤ c ∧ c ≤ '9') ∨
    c = '-' ∨ c = '_'

instance (c : Char) : Decidable (specAllowed c) := by
  unfold specAllowed; infer_instance

/-- The mutable state touched by the click handler: the index map raster,
the label to contour index table, the traced contour list, the active
boundary lastCnt, the current solid, the displayed raster (determined by
the contour list and the highlighted index), and the configuration. -/
structure AppState where
  contourMap : ℕ → ℕ → ℕ
  contourNumMap : List ℕ
  contours : List Contour
  lastCnt : Option Contour
  solid : Option (List Extrusion)
  displayed : Option (List Contour × ℕ)
  config : CutterConfig

/-- updateContourSelection: read the label at the clicked point from the
index map; label zero does nothing, otherwise resolve the label through
contourNumMap to a contour index, set that contour as the active boundary,
rebuild the solid from it, and redraw the display with it highlighted. -/
def updateContourSelection (env : CVEnv) (x y : ℕ) (s : AppState) : AppState :=
  if s.contourMap y x = 0 then s
  else
    { s with
      lastCnt := some (s.contours.getD (s.contourNumMap.getD (s.contourMap y x - 1) 0) []),
      solid := generateSTL env
        (s.contours.getD (s.contourNumMap.getD (s.contourMap y x - 1) 0) []) s.config,
      displayed := some (s.contours, s.contourNumMap.getD (s.contourMap y x - 1) 0) }

/-- A state whose index map holds only the background label. -/
def stateZero : AppState := ⟨fun _ _ => 0, [], [], none, none, none, cfgDefault⟩

/-- A state whose index map holds label one everywhere, resolving to the
single traced contour. -/
def stateOne : AppState := ⟨fun _ _ => 1, [0], [sqBig], none, none, none, cfgDefault⟩

end CookieCutter

namespace CookieCutter

theorem keepPoint_iff (t lx ly x y : ℚ) :
    keepPoint t lx ly x y ↔ differsBeyond t lx ly x y := by
  unfold keepPoint differsBeyond
  rw [lt_abs, lt_abs]
  constructor
  · rintro (h | h | h | h)
    · exact Or.inl (Or.inl (by linarith))
    · exact Or.inl (Or.inr (by linarith))
    · exact Or.inr (Or.inl (by linarith))
    · exact Or.inr (Or.inr (by linarith))
  · rintro ((h | h) | (h | h))
    · exact Or.inl (by linarith)
    · exact Or.inr (Or.inl (by linarith))
    · exact Or.inr (Or.inr (Or.inl (by linarith)))
    · exact Or.inr (Or.inr (Or.inr (by linarith)))

theorem gtvLoop_eq_greedyKeep (s t : ℚ) : ∀ (cnt : List Pt) (lx ly : ℚ),
    gtvLoop s t cnt lx ly = greedyKeep s t cnt lx ly
  | [], _, _ => rfl
  | p :: rest, lx, ly => by
      unfold gtvLoop greedyKeep
      by_cases h : keepPoint t lx ly ((p.1 : ℚ) * s) ((p.2 : ℚ) * s)
      · rw [if_pos h, if_pos ((keepPoint_iff t lx ly _ _).mp h),
          gtvLoop_eq_greedyKeep s t rest]
      · rw [if_neg h, if_neg (fun hd => h ((keepPoint_iff t lx ly _ _).mpr hd)),
          gtvLoop_eq_greedyKeep s t rest]

/-- Claim C4: for every contour point list, scale factor, and tolerance, the
point reduction filter keeps a point if and only if it differs from the last
kept point by strictly more than the tolerance in at least one axis, scanning
points in order: the output is exactly the greedy subsequence of the scaled
points under that per axis tolerance predicate. -/
theorem claim_C4 (cnt : Contour) (scaleF tol : ℚ) :
    getThreeVector cnt scaleF tol = greedySpec cnt scaleF tol :=
  gtvLoop_eq_greedyKeep scaleF tol cnt (-1000) (-1000)

/-- Claim C5 fails on the code: at the concrete contour
(0,0), (3,0), (5,0), (1,0) with scale 1, raising the tolerance from 2 to 3
raises the kept vertex count from 2 to 3, so a larger tolerance can produce
strictly more output vertices. -/
theorem claim_C5_counterexample :
    (2 : ℚ) ≤ 3 ∧ (getThreeVector c5Pts 1 2).length = 2 ∧
      (getThreeVector c5Pts 1 3).length = 3 :=
  ⟨by norm_num, by norm_num [getThreeVector, gtvLoop, keepPoint, c5Pts],
    by norm_num [getThreeVector, gtvLoop, keepPoint, c5Pts]⟩

theorem keepPoint_anti (t₁ t₂ lx ly x y : ℚ) (ht : t₁ ≤ t₂)
    (h : keepPoint t₂ lx ly x y) : keepPoint t₁ lx ly x y := by
  rcases h with h | h | h | h
  · exact Or.inl (by linarith)
  · exact Or.inr (Or.inl (by linarith))
  · exact Or.inr (Or.inr (Or.inl (by linarith)))
  · exact Or.inr (Or.inr (Or.inr (by linarith)))

theorem gtvLoop_ne_nil_mono (s t₁ t₂ : ℚ) (ht : t₁ ≤ t₂) :
    ∀ (cnt : List Pt) (lx ly : ℚ),
      gtvLoop s t₂ cnt lx ly ≠ [] → gtvLoop s t₁ cnt lx ly ≠ []
  | [], _, _ => fun h => h
  | p :: rest, lx, ly => by
      intro h2
      unfold gtvLoop
      by_cases h1 : keepPoint t₁ lx ly ((p.1 : ℚ) * s) ((p.2 : ℚ) * s)
      · rw [if_pos h1]; exact List.cons_ne_nil _ _
      · rw [if_neg h1]
        have h2k : ¬ keepPoint t₂ lx ly ((p.1 : ℚ) * s) ((p.2 : ℚ) * s) :=
          fun hk => h1 (keepPoint_anti t₁ t₂ lx ly _ _ ht hk)
        rw [gtvLoop, if_neg h2k] at h2
        exact gtvLoop_ne_nil_mono s t₁ t₂ ht rest lx ly h2

/-- Claim C5 amended: full output count monotonicity in the tolerance fails
(see the counterexample); what survives is that each keep decision against a
fixed last kept point is antitone in the tolerance, hence raising the
tolerance never turns an empty output into a non empty one: if any vertex
survives at the larger tolerance, some vertex survives at the smaller one. -/
theorem claim_C5_amended (cnt : Contour) (s t₁ t₂ : ℚ) (ht : t₁ ≤ t₂)
    (hne : getThreeVector cnt s t₂ ≠ []) : getThreeVector cnt s t₁ ≠ [] :=
  gtvLoop_ne_nil_mono s t₁ t₂ ht cnt (-1000) (-1000) hne

theorem claim_C5_amended_witness :
    (1 : ℚ) ≤ 2 ∧ getThreeVector [((0 : ℤ), (0 : ℤ))] 1 2 ≠ [] ∧
      getThreeVector [((0 : ℤ), (0 : ℤ))] 1 1 ≠ [] :=
  ⟨by norm_num, by norm_num [getThreeVector, gtvLoop, keepPoint],
    claim_C5_amended [((0 : ℤ), (0 : ℤ))] 1 1 2 (by norm_num)
      (by norm_num [getThreeVector, gtvLoop, keepPoint])⟩

/-- Claim C10: for every non empty contour whose first point has non negative
coordinates, every non negative scale factor and every tolerance below 1000,
the filter keeps the first point, because the last kept tracker starts at
(-1000, -1000): the output is non empty and starts with the first input point
times the scale factor. -/
theorem claim_C10 (p : Pt) (rest : Contour) (scaleF tol : ℚ)
    (hx : 0 ≤ p.1) (_hy : 0 ≤ p.2) (hs : 0 ≤ scaleF) (ht : tol < 1000) :
    ∃ tl, getThreeVector (p :: rest) scaleF tol =
      ((p.1 : ℚ) * scaleF, (p.2 : ℚ) * scaleF) :: tl := by
  unfold getThreeVector gtvLoop
  rw [if_pos]
  · exact ⟨_, rfl⟩
  · refine Or.inl ?_
    have hxq : (0 : ℚ) ≤ (p.1 : ℚ) * scaleF :=
      mul_nonneg (by exact_mod_cast hx) hs
    linarith

theorem selLoop_maxArea_mono (cutoff : ℚ) : ∀ (cs : List Contour) (i : ℕ) (acc : SelAcc),
    acc.maxArea ≤ (selLoop cutoff i acc cs).maxArea
  | [], _, _ => le_refl _
  | c :: cs, i, acc => by
      unfold selLoop
      by_cases h : unsignedArea c < cutoff ∧ acc.maxArea < unsignedArea c
      · rw [if_pos h]
        exact le_trans h.2.le (selLoop_maxArea_mono cutoff cs (i + 1) _)
      · rw [if_neg h]
        exact selLoop_maxArea_mono cutoff cs (i + 1) acc

theorem selLoop_dominates (cutoff : ℚ) : ∀ (cs : List Contour) (i : ℕ) (acc : SelAcc)
    (c : Contour), c ∈ cs → unsignedArea c < cutoff →
    unsignedArea c ≤ (selLoop cutoff i acc cs).maxArea
  | [], _, _, _, hmem, _ => absurd hmem (List.not_mem_nil _)
  | c₀ :: cs, i, acc, c, hmem, hlt => by
      unfold selLoop
      rcases List.mem_cons.mp hmem with rfl | hmem2
      · by_cases h : unsignedArea c < cutoff ∧ acc.maxArea < unsignedArea c
        · rw [if_pos h]
          exact selLoop_maxArea_mono cutoff cs (i + 1) _
        · rw [if_neg h]
          have hle : unsignedArea c ≤ acc.maxArea := by
            rcases not_and_or.mp h with h1 | h2
            · exact absurd hlt h1
            · exact le_of_not_lt h2
          exact le_trans hle (selLoop_maxArea_mono cutoff cs (i + 1) acc)
      · by_cases h : unsignedArea c₀ < cutoff ∧ acc.maxArea < unsignedArea c₀
        · rw [if_pos h]
          exact selLoop_dominates cutoff cs (i + 1) _ c hmem2 hlt
        · rw [if_neg h]
          exact selLoop_dominates cutoff cs (i + 1) acc c hmem2 hlt

theorem selLoop_origin (cutoff : ℚ) : ∀ (cs : List Contour) (i : ℕ) (acc : SelAcc),
    selLoop cutoff i acc cs = acc ∨
      ∃ j c, cs[j]? = some c ∧
        (selLoop cutoff i acc cs).largestContour = i + j ∧
        (selLoop cutoff i acc cs).maxArea = unsignedArea c ∧
        unsignedArea c < cutoff
  | [], _, _ => Or.inl rfl
  | c₀ :: cs, i, acc => by
      unfold selLoop
      by_cases h : unsignedArea c₀ < cutoff ∧ acc.maxArea < unsignedArea c₀
      · rw [if_pos h]
        rcases selLoop_origin cutoff cs (i + 1)
            ⟨i, unsignedArea c₀, decide (0 ≤ signedArea c₀)⟩ with
          heq | ⟨j, c, hj, hL, hM, hlt⟩
        · refine Or.inr ⟨0, c₀, by simp, ?_, ?_, h.1⟩
          · rw [heq]; simp
          · rw [heq]
        · exact Or.inr ⟨j + 1, c, by simpa using hj, by rw [hL]; omega, hM, hlt⟩
      · rw [if_neg h]
        rcases selLoop_origin cutoff cs (i + 1) acc with heq | ⟨j, c, hj, hL, hM, hlt⟩
        · exact Or.inl heq
        · exact Or.inr ⟨j + 1, c, by simpa using hj, by rw [hL]; omega, hM, hlt⟩

/-- Claim C1: whenever the traced contour list contains at least one
selectable candidate (unsigned area strictly between cutoff/10 and the frame
cutoff of 0.90 times the padded pixel count), the contour chosen as the
default active boundary is an actual member of the list, its area lies in
that open interval, and its area is the largest among all candidates. -/
theorem claim_C1 (cols rows : ℕ) (cs : List Contour)
    (hex : ∃ c ∈ cs, isCandidate (frameCutoff cols rows) c) :
    ∃ c, cs[(defaultSel (frameCutoff cols rows) cs).largestContour]? = some c ∧
      isCandidate (frameCutoff cols rows) c ∧
      unsignedArea c = (defaultSel (frameCutoff cols rows) cs).maxArea ∧
      ∀ c₂ ∈ cs, isCandidate (frameCutoff cols rows) c₂ →
        unsignedArea c₂ ≤ unsignedArea c := by
  obtain ⟨c₀, hc₀m, hc₀1, hc₀2⟩ := hex
  simp only [defaultSel]
  have hcutpos : 0 < frameCutoff cols rows :=
    lt_of_le_of_lt (abs_nonneg (signedArea c₀)) hc₀2
  have hdom := selLoop_dominates (frameCutoff cols rows) cs 0 ⟨0, 0, true⟩ c₀ hc₀m hc₀2
  have hmax : frameCutoff cols rows * (1 / 10) <
      (selLoop (frameCutoff cols rows) 0 ⟨0, 0, true⟩ cs).maxArea :=
    lt_of_lt_of_le hc₀1 hdom
  rcases selLoop_origin (frameCutoff cols rows) cs 0 ⟨0, 0, true⟩ with
    heq | ⟨j, c, hj, hL, hM, hlt⟩
  · exfalso
    rw [heq] at hmax
    have hpos : 0 < frameCutoff cols rows * (1 / 10) := by positivity
    have : (0 : ℚ) < (0 : ℚ) := lt_trans hpos hmax
    exact lt_irrefl 0 this
  · refine ⟨c, ?_, ⟨?_, hlt⟩, hM.symm, ?_⟩
    · rw [hL]; simpa using hj
    · rw [hM] at hmax; exact hmax
    · intro c₂ hc₂m hcand₂
      have := selLoop_dominates (frameCutoff cols rows) cs 0 ⟨0, 0, true⟩ c₂ hc₂m hcand₂.2
      rw [hM] at this
      exact this

theorem claim_C1_witness :
    (∃ c ∈ [sqTen], isCandidate (frameCutoff 20 20) c) ∧
      ∃ c, [sqTen][(defaultSel (frameCutoff 20 20) [sqTen]).largestContour]? = some c ∧
        isCandidate (frameCutoff 20 20) c ∧
        unsignedArea c = (defaultSel (frameCutoff 20 20) [sqTen]).maxArea ∧
        ∀ c₂ ∈ [sqTen], isCandidate (frameCutoff 20 20) c₂ →
          unsignedArea c₂ ≤ unsignedArea c :=
  ⟨⟨sqTen, by simp, by
      norm_num [isCandidate, unsignedArea, signedArea, shoelace, shoelaceFrom,
        cross, sqTen, frameCutoff]⟩,
    claim_C1 20 20 [sqTen] ⟨sqTen, by simp, by
      norm_num [isCandidate, unsignedArea, signedArea, shoelace, shoelaceFrom,
        cross, sqTen, frameCutoff]⟩⟩

theorem claim_C10_witness :
    (0 : ℤ) ≤ 2 ∧ (0 : ℤ) ≤ 3 ∧ (0 : ℚ) ≤ 1 / 10 ∧ (15 / 100 : ℚ) < 1000 ∧
      ∃ tl, getThreeVector [((2 : ℤ), (3 : ℤ))] (1 / 10) (15 / 100) =
        (((2 : ℤ) : ℚ) * (1 / 10), ((3 : ℤ) : ℚ) * (1 / 10)) :: tl :=
  ⟨by decide, by decide, by norm_num, by norm_num,
    claim_C10 (2, 3) [] (1 / 10) (15 / 100) (by decide) (by decide)
      (by norm_num) (by norm_num)⟩

theorem wallOffset_hw : wallOffset handleWidth = 63 := by
  rw [wallOffset, handleWidth, Int.ceil_eq_iff]
  constructor
  · norm_num
  · norm_num

theorem ringCutoff_hw : ringCutoff 76 handleWidth = 3728731 / 5 := by
  rw [ringCutoff, ringSide, wallOffset_hw]
  norm_num

theorem gso_envTwo (width tol : ℚ) :
    getScaledOutlineShape envTwo sqBig width handleWidth 76 tol =
      some ⟨getThreeVector sqBig (1 / 10) tol, [getThreeVector sqSmall (1 / 10) tol]⟩ := by
  rw [getScaledOutlineShape, ringCutoff_hw]
  norm_num [ringOutline, ringSel, ringLoop, envTwo, unsignedArea, signedArea,
    shoelace, shoelaceFrom, cross, sqBig, sqSmall]

theorem gso_envOne (width tol : ℚ) :
    getScaledOutlineShape envOne sqBig width handleWidth 76 tol = none := by
  rw [getScaledOutlineShape, ringCutoff_hw]
  norm_num [ringOutline, ringSel, ringLoop, envOne, unsignedArea, signedArea,
    shoelace, shoelaceFrom, cross, sqBig]

theorem ringLoop_maxArea_mono (cutoff : ℚ) : ∀ (cs : List Contour) (i : ℕ) (acc : RingAcc),
    acc.maxArea ≤ (ringLoop cutoff i acc cs).maxArea
  | [], _, _ => le_refl _
  | c :: cs, i, acc => by
      unfold ringLoop
      by_cases h : acc.maxArea < unsignedArea c ∧ unsignedArea c < cutoff
      · rw [if_pos h]
        exact le_trans h.1.le (ringLoop_maxArea_mono cutoff cs (i + 1) _)
      · rw [if_neg h]
        exact ringLoop_maxArea_mono cutoff cs (i + 1) acc

theorem ringLoop_dominates (cutoff : ℚ) : ∀ (cs : List Contour) (i : ℕ) (acc : RingAcc)
    (c : Contour), c ∈ cs → unsignedArea c < cutoff →
    unsignedArea c ≤ (ringLoop cutoff i acc cs).maxArea
  | [], _, _, _, hmem, _ => absurd hmem (List.not_mem_nil _)
  | c₀ :: cs, i, acc, c, hmem, hlt => by
      unfold ringLoop
      rcases List.mem_cons.mp hmem with rfl | hmem2
      · by_cases h : acc.maxArea < unsignedArea c ∧ unsignedArea c < cutoff
        · rw [if_pos h]
          exact ringLoop_maxArea_mono cutoff cs (i + 1) _
        · rw [if_neg h]
          have hle : unsignedArea c ≤ acc.maxArea := by
            rcases not_and_or.mp h with h1 | h2
            · exact le_of_not_lt h1
            · exact absurd hlt h2
          exact le_trans hle (ringLoop_maxArea_mono cutoff cs (i + 1) acc)
      · by_cases h : acc.maxArea < unsignedArea c₀ ∧ unsignedArea c₀ < cutoff
        · rw [if_pos h]
          exact ringLoop_dominates cutoff cs (i + 1) _ c hmem2 hlt
        · rw [if_neg h]
          exact ringLoop_dominates cutoff cs (i + 1) acc c hmem2 hlt

theorem ringLoop_origin (cutoff : ℚ) : ∀ (cs : List Contour) (i : ℕ) (acc : RingAcc),
    ringLoop cutoff i acc cs = acc ∨
      ∃ j c, cs[j]? = some c ∧
        (ringLoop cutoff i acc cs).largestContour = i + j ∧
        (ringLoop cutoff i acc cs).maxArea = unsignedArea c ∧
        unsignedArea c < cutoff
  | [], _, _ => Or.inl rfl
  | c₀ :: cs, i, acc => by
      unfold ringLoop
      by_cases h : acc.maxArea < unsignedArea c₀ ∧ unsignedArea c₀ < cutoff
      · rw [if_pos h]
        rcases ringLoop_origin cutoff cs (i + 1)
            ⟨i, acc.largestContour, unsignedArea c₀⟩ with
          heq | ⟨j, c, hj, hL, hM, hlt⟩
        · refine Or.inr ⟨0, c₀, by simp, ?_, ?_, h.2⟩
          · rw [heq]; simp
          · rw [heq]
        · exact Or.inr ⟨j + 1, c, by simpa using hj, by rw [hL]; omega, hM, hlt⟩
      · rw [if_neg h]
        rcases ringLoop_origin cutoff cs (i + 1) acc with heq | ⟨j, c, hj, hL, hM, hlt⟩
        · exact Or.inl heq
        · exact Or.inr ⟨j + 1, c, by simpa using hj, by rw [hL]; omega, hM, hlt⟩

theorem ringOutline_short (cutoff tol : ℚ) (cs : List Contour) (h : cs.length < 2) :
    ringOutline cutoff tol cs = none := by
  rcases cs with _ | ⟨c, _ | ⟨d, tl⟩⟩
  · simp [ringOutline, ringSel, ringLoop]
  · simp only [ringOutline, ringSel, ringLoop]
    split_ifs with hc
    · simp
    · simp
  · exfalso
    simp only [List.length_cons] at h
    omega

theorem ringOutline_holes (cutoff tol : ℚ) (cs : List Contour) (s : OutlineShape)
    (h : ringOutline cutoff tol cs = some s) : s.holes.length = 1 := by
  unfold ringOutline at h
  rcases h1 : cs[(ringSel cutoff cs).largestContour]? with _ | oc <;>
    rcases h2 : cs[(ringSel cutoff cs).otherContour]? with _ | ic <;>
    rw [h1, h2] at h
  · exact Option.noConfusion h
  · exact Option.noConfusion h
  · exact Option.noConfusion h
  · injection h with h
    rw [← h]
    rfl

/-- Claim C2 fails on the code: there is no ring degenerate signal and no
holeless fallback. At the concrete one contour trace of envOne the Offset
Outline Generator fails its slot lookup and returns nothing instead of a
solid outline, and the Solid Assembler then also produces nothing for that
rebuild rather than substituting a holeless outline. -/
theorem claim_C2_counterexample :
    getScaledOutlineShape envOne sqBig (1 / 2) handleWidth 76 (15 / 100) = none ∧
      generateSTL envOne sqBig cfgDefault = none := by
  constructor
  · exact gso_envOne (1 / 2) (15 / 100)
  · rw [generateSTL]
    norm_num [cfgDefault, gso_envOne]

/-- Claim C2 amended: the Offset Outline Generator performs no degenerate
case handling. When the re-trace yields fewer than two contours, its slot
lookup goes out of bounds and no outline at all is produced (nothing is
substituted); and every outline it does produce carries exactly one hole,
so a holeless fallback never occurs. -/
theorem claim_C2_amended (env : CVEnv) (cnt : Contour) (width mbow size tol : ℚ) :
    ((env.strokeRetrace cnt width mbow size).length < 2 →
      getScaledOutlineShape env cnt width mbow size tol = none) ∧
    ∀ s, getScaledOutlineShape env cnt width mbow size tol = some s →
      s.holes.length = 1 :=
  ⟨fun h => ringOutline_short (ringCutoff size mbow) tol _ h,
    fun s h => ringOutline_holes (ringCutoff size mbow) tol _ s h⟩

theorem claim_C2_amended_witness :
    (envOne.strokeRetrace sqBig (1 / 2) handleWidth 76).length < 2 ∧
      getScaledOutlineShape envOne sqBig (1 / 2) handleWidth 76 (15 / 100) = none ∧
      getScaledOutlineShape envTwo sqBig (1 / 2) handleWidth 76 (15 / 100) =
        some shapeTwo ∧
      shapeTwo.holes.length = 1 := by
  have hlen : (envOne.strokeRetrace sqBig (1 / 2) handleWidth 76).length < 2 := by
    simp [envOne]
  have htwo : getScaledOutlineShape envTwo sqBig (1 / 2) handleWidth 76 (15 / 100) =
      some shapeTwo := gso_envTwo (1 / 2) (15 / 100)
  exact ⟨hlen,
    (claim_C2_amended envOne sqBig (1 / 2) handleWidth 76 (15 / 100)).1 hlen,
    htwo,
    (claim_C2_amended envTwo sqBig (1 / 2) handleWidth 76 (15 / 100)).2 shapeTwo htwo⟩

/-- Claim C3 fails on the code: the other slot holds the contour displaced
at the last update of the scan, not the second largest contour. On the
concrete three contour trace with areas 10, 5 and 7 (all far below the 0.95
raster cutoff) the hole is built from the area five contour at index 1,
although the other of the two largest traced contours is the area seven
contour, whose vertex list differs. -/
theorem claim_C3_counterexample :
    unsignedArea rectTen = 10 ∧ unsignedArea rectFive = 5 ∧
      unsignedArea rectSeven = 7 ∧
      unsignedArea rectTen < ringCutoff 76 handleWidth ∧
      unsignedArea rectSeven < ringCutoff 76 handleWidth ∧
      getScaledOutlineShape envThree rectTen (1 / 2) handleWidth 76 0 =
        some ⟨getThreeVector rectTen (1 / 10) 0, [getThreeVector rectFive (1 / 10) 0]⟩ ∧
      getThreeVector rectFive (1 / 10) 0 ≠ getThreeVector rectSeven (1 / 10) 0 := by
  refine ⟨?_, ?_, ?_, ?_, ?_, ?_, ?_⟩
  · norm_num [unsignedArea, signedArea, shoelace, shoelaceFrom, cross, rectTen]
  · norm_num [unsignedArea, signedArea, shoelace, shoelaceFrom, cross, rectFive]
  · norm_num [unsignedArea, signedArea, shoelace, shoelaceFrom, cross, rectSeven]
  · rw [ringCutoff_hw]
    norm_num [unsignedArea, signedArea, shoelace, shoelaceFrom, cross, rectTen]
  · rw [ringCutoff_hw]
    norm_num [unsignedArea, signedArea, shoelace, shoelaceFrom, cross, rectSeven]
  · rw [getScaledOutlineShape, ringCutoff_hw]
    norm_num [ringOutline, ringSel, ringLoop, envThree, csThree, unsignedArea,
      signedArea, shoelace, shoelaceFrom, cross, rectTen, rectFive, rectSeven]
  · norm_num [getThreeVector, gtvLoop, keepPoint, rectFive, rectSeven]

/-- Claim C3 amended: the outer polygon is always a maximal area traced
contour among those with area below the cutoff, whenever such a contour of
positive area exists; and when exactly two contours are traced and the
first has positive area below the cutoff, the outer and inner slots are
exactly the two traced contours. With three or more traced contours the
inner slot need not be the second largest (see the counterexample). -/
theorem claim_C3_amended (cutoff : ℚ) (cs : List Contour)
    (hex : ∃ c ∈ cs, 0 < unsignedArea c ∧ unsignedArea c < cutoff) :
    (∃ c, cs[(ringSel cutoff cs).largestContour]? = some c ∧
        unsignedArea c = (ringSel cutoff cs).maxArea ∧ unsignedArea c < cutoff ∧
        ∀ c₂ ∈ cs, unsignedArea c₂ < cutoff → unsignedArea c₂ ≤ unsignedArea c) ∧
    (∀ c₀ c₁, cs = [c₀, c₁] → 0 < unsignedArea c₀ → unsignedArea c₀ < cutoff →
        ((ringSel cutoff cs).largestContour = 0 ∧ (ringSel cutoff cs).otherContour = 1) ∨
          ((ringSel cutoff cs).largestContour = 1 ∧ (ringSel cutoff cs).otherContour = 0)) := by
  constructor
  · obtain ⟨c₀, hc₀m, hc₀1, hc₀2⟩ := hex
    simp only [ringSel]
    have hdom := ringLoop_dominates cutoff cs 0 ⟨1, 0, 0⟩ c₀ hc₀m hc₀2
    have hmax : (0 : ℚ) < (ringLoop cutoff 0 ⟨1, 0, 0⟩ cs).maxArea :=
      lt_of_lt_of_le hc₀1 hdom
    rcases ringLoop_origin cutoff cs 0 ⟨1, 0, 0⟩ with heq | ⟨j, c, hj, hL, hM, hlt⟩
    · exfalso
      rw [heq] at hmax
      exact lt_irrefl 0 hmax
    · refine ⟨c, ?_, hM.symm, hlt, ?_⟩
      · rw [hL]; simpa using hj
      · intro c₂ hc₂m hc₂lt
        have := ringLoop_dominates cutoff cs 0 ⟨1, 0, 0⟩ c₂ hc₂m hc₂lt
        rw [hM] at this
        exact this
  · intro c₀ c₁ hcs h0 h1
    subst hcs
    simp only [ringSel, ringLoop]
    split_ifs with hA hB hB2
    · exact Or.inr ⟨rfl, rfl⟩
    · exact Or.inl ⟨rfl, rfl⟩
    · exact absurd ⟨h0, h1⟩ hA
    · exact absurd ⟨h0, h1⟩ hA

theorem claim_C3_amended_witness :
    (∃ c ∈ [rectTen, rectFive],
        0 < unsignedArea c ∧ unsignedArea c < ringCutoff 76 handleWidth) ∧
      (∃ c, [rectTen, rectFive][(ringSel (ringCutoff 76 handleWidth)
            [rectTen, rectFive]).largestContour]? = some c ∧
        unsignedArea c = (ringSel (ringCutoff 76 handleWidth) [rectTen, rectFive]).maxArea ∧
        unsignedArea c < ringCutoff 76 handleWidth ∧
        ∀ c₂ ∈ [rectTen, rectFive], unsignedArea c₂ < ringCutoff 76 handleWidth →
          unsignedArea c₂ ≤ unsignedArea c) ∧
      (((ringSel (ringCutoff 76 handleWidth) [rectTen, rectFive]).largestContour = 0 ∧
          (ringSel (ringCutoff 76 handleWidth) [rectTen, rectFive]).otherContour = 1) ∨
        ((ringSel (ringCutoff 76 handleWidth) [rectTen, rectFive]).largestContour = 1 ∧
          (ringSel (ringCutoff 76 handleWidth) [rectTen, rectFive]).otherContour = 0)) := by
  have h0 : (0 : ℚ) < unsignedArea rectTen := by
    norm_num [unsignedArea, signedArea, shoelace, shoelaceFrom, cross, rectTen]
  have h1 : unsignedArea rectTen < ringCutoff 76 handleWidth := by
    rw [ringCutoff_hw]
    norm_num [unsignedArea, signedArea, shoelace, shoelaceFrom, cross, rectTen]
  have hex : ∃ c ∈ [rectTen, rectFive],
      0 < unsignedArea c ∧ unsignedArea c < ringCutoff 76 handleWidth :=
    ⟨rectTen, by simp, h0, h1⟩
  exact ⟨hex, (claim_C3_amended (ringCutoff 76 handleWidth) [rectTen, rectFive] hex).1,
    (claim_C3_amended (ringCutoff 76 handleWidth) [rectTen, rectFive] hex).2
      rectTen rectFive rfl h0 h1⟩

/-- Claim C6: for every successful build, when the bevel is disabled the
Solid Assembler performs exactly one wall extrusion, of the thickness/2
outline, to the full depth with no bevel; when the bevel is enabled it
merges a straight base extrusion of height depth/2 built from the relief
outline at thickness * 3 / 2 with a beveled cap of bevel thickness depth/2
and bevel size thickness/2 built from the thickness/2 outline and raised by
depth/2; the handle piece is extruded separately in both cases. -/
theorem claim_C6 (env : CVEnv) (cnt : Contour) (cfg : CutterConfig)
    (pieces : List Extrusion) (h : generateSTL env cnt cfg = some pieces) :
    (cfg.cutterBevel = false →
      ∃ wall hshape,
        getScaledOutlineShape env cnt (cfg.thickness / 2) handleWidth cfg.size
          cfg.tolerance = some wall ∧
        getScaledOutlineShape env cnt handleWidth handleWidth cfg.size
          cfg.tolerance = some hshape ∧
        pieces = [⟨wall, ⟨1, cfg.depth, false, 0, 0, 0, 0⟩, 0⟩,
          ⟨hshape, handleSettings cfg.handleRound, 0⟩]) ∧
    (cfg.cutterBevel = true →
      ∃ wall relief hshape,
        getScaledOutlineShape env cnt (cfg.thickness / 2) handleWidth cfg.size
          cfg.tolerance = some wall ∧
        getScaledOutlineShape env cnt (cfg.thickness * 3 / 2) handleWidth cfg.size
          cfg.tolerance = some relief ∧
        getScaledOutlineShape env cnt handleWidth handleWidth cfg.size
          cfg.tolerance = some hshape ∧
        pieces = [⟨relief, ⟨1, cfg.depth / 2, false, 0, 0, 0, 0⟩, 0⟩,
          ⟨wall, ⟨1, 0, true, cfg.depth / 2, cfg.thickness / 2, 0, 1⟩, cfg.depth / 2⟩,
          ⟨hshape, handleSettings cfg.handleRound, 0⟩]) := by
  rw [generateSTL] at h
  cases hcb : cfg.cutterBevel
  · rw [hcb, if_neg Bool.false_ne_true] at h
    rcases h1 : getScaledOutlineShape env cnt (cfg.thickness / 2) handleWidth cfg.size
        cfg.tolerance with _ | wall <;> rw [h1] at h
    · exact Option.noConfusion h
    · rcases h2 : getScaledOutlineShape env cnt handleWidth handleWidth cfg.size
          cfg.tolerance with _ | hshape <;> rw [h2] at h
      · exact Option.noConfusion h
      · injection h with h
        refine ⟨fun _ => ⟨wall, hshape, rfl, rfl, ?_⟩, fun hc => Bool.noConfusion hc⟩
        rw [← h]
        simp [straightSettings]
  · rw [hcb, if_pos rfl] at h
    rcases h1 : getScaledOutlineShape env cnt (cfg.thickness / 2) handleWidth cfg.size
        cfg.tolerance with _ | wall <;> rw [h1] at h
    · exact Option.noConfusion h
    · rcases h2 : getScaledOutlineShape env cnt (cfg.thickness * 3 / 2) handleWidth cfg.size
          cfg.tolerance with _ | relief <;> rw [h2] at h
      · exact Option.noConfusion h
      · rcases h3 : getScaledOutlineShape env cnt handleWidth handleWidth cfg.size
            cfg.tolerance with _ | hshape <;> rw [h3] at h
        · exact Option.noConfusion h
        · injection h with h
          refine ⟨fun hc => Bool.noConfusion hc,
            fun _ => ⟨wall, relief, hshape, rfl, rfl, rfl, ?_⟩⟩
          rw [← h]
          simp [straightSettings, capSettings]

theorem claim_C6_witness :
    generateSTL envTwo sqBig cfgDefault = some piecesTwo ∧
      (cfgDefault.cutterBevel = false →
        ∃ wall hshape,
          getScaledOutlineShape envTwo sqBig (cfgDefault.thickness / 2) handleWidth
            cfgDefault.size cfgDefault.tolerance = some wall ∧
          getScaledOutlineShape envTwo sqBig handleWidth handleWidth
            cfgDefault.size cfgDefault.tolerance = some hshape ∧
          piecesTwo = [⟨wall, ⟨1, cfgDefault.depth, false, 0, 0, 0, 0⟩, 0⟩,
            ⟨hshape, handleSettings cfgDefault.handleRound, 0⟩]) := by
  have hgen : generateSTL envTwo sqBig cfgDefault = some piecesTwo := by
    rw [generateSTL]
    norm_num [cfgDefault, gso_envTwo, straightSettings, handleSettings,
      handleThickness, shapeTwo, piecesTwo]
  exact ⟨hgen, (claim_C6 envTwo sqBig cfgDefault piecesTwo hgen).1⟩

theorem allowedChar_iff (c : Char) : allowedChar c = true ↔ specAllowed c := by
  simp only [allowedChar, decide_eq_true_eq, specAllowed]
  tauto

/-- Claim C7: the Export Adapter replaces every character that is not an
ASCII letter, digit, hyphen or underscore with an underscore and appends
the fixed mesh extension; in particular the base my cookie! sanitizes to
my_cookie_ and the base A/B..c sanitizes to A_B__c. -/
theorem claim_C7 :
    (∀ s : String, fileNameToSaveAs s =
        String.mk (s.data.map fun c => if specAllowed c then c else '_') ++ ".stl") ∧
      fileNameToSaveAs "my cookie!" = "my_cookie_.stl" ∧
      fileNameToSaveAs "A/B..c" = "A_B__c.stl" := by
  have hf : (fun c : Char => if allowedChar c then c else '_') =
      (fun c : Char => if specAllowed c then c else '_') := by
    funext c
    by_cases hc : specAllowed c
    · rw [if_pos ((allowedChar_iff c).mpr hc), if_pos hc]
    · rw [if_neg (fun hb => hc ((allowedChar_iff c).mp hb)), if_neg hc]
  refine ⟨?_, ?_, ?_⟩
  · intro s
    rw [fileNameToSaveAs, sanitizedFilename, hf]
  · decide
  · decide

/-- Claim C8: a click whose index map lookup yields the background label
zero changes nothing: the whole state, in particular the active boundary,
the displayed raster and the solid, is returned untouched. -/
theorem claim_C8 (env : CVEnv) (x y : ℕ) (s : AppState) (h : s.contourMap y x = 0) :
    updateContourSelection env x y s = s := by
  rw [updateContourSelection, if_pos h]

theorem claim_C8_witness :
    stateZero.contourMap 4 3 = 0 ∧
      updateContourSelection envTwo 3 4 stateZero = stateZero :=
  ⟨rfl, claim_C8 envTwo 3 4 stateZero rfl⟩

/-- Claim C9: with a nonzero index map label and a fixed configuration,
performing the boundary selection twice at the same coordinate yields
exactly the state produced by performing it once: the selection is
idempotent, hence deterministic in the active boundary and the solid. -/
theorem claim_C9 (env : CVEnv) (x y : ℕ) (s : AppState) (h : s.contourMap y x ≠ 0) :
    updateContourSelection env x y (updateContourSelection env x y s) =
      updateContourSelection env x y s := by
  simp [updateContourSelection, h]

theorem claim_C9_witness :
    stateOne.contourMap 4 3 ≠ 0 ∧
      updateContourSelection envTwo 3 4 (updateContourSelection envTwo 3 4 stateOne) =
        updateContourSelection envTwo 3 4 stateOne :=
  ⟨Nat.one_ne_zero, claim_C9 envTwo 3 4 stateOne Nat.one_ne_zero⟩

end CookieCutter
